import Mathlib

/-!
Shallow embedding of the expression layer of `src/eql/ast.py`: the node
model, the structural-equality relation, the algebraic optimizer
(`optimize`, `__and__`, `__or__`, `__invert__`), the `TimeRange`
renderer, literal construction, and macro expansion.

Python numeric literal values are modelled as exact rationals: Python
`int` and `float` values compare equal by numeric value
(`2 == 2.0 == True` is `True` for `2 == 2.0`, and `True == 1`), which
the rational model reproduces; host floating-point rounding is out of
scope.  `str.lower` is modelled by the ASCII per-character map
`strLower`, adequate for every string appearing in the development.
-/

/-- A primitive Python value as stored in the `value`
slot of a `Literal` node (`None`, `bool`, `int`/`float` collapsed to an exact rational, or
`str`). -/
inductive PyVal where
  | none
  | bool (b : Bool)
  | num (q : ℚ)
  | str (s : String)
deriving DecidableEq, Repr

/-- The equality class of a Python value under `==` / `hash`: booleans
and numbers collapse to one numeric key (`True == 1`, `1 == 1.0`),
strings and `None` are their own classes.  Used both for Python `==`
on literal values and for dictionary keys in `InSet._get_literals`. -/
inductive PyKey where
  | none
  | num (q : ℚ)
  | str (s : String)
deriving DecidableEq, Repr

/-- Map a Python value to its `==`-equality class. -/
def pyKey : PyVal → PyKey
  | .none => .none
  | .bool b => .num (if b then 1 else 0)
  | .num q => .num q
  | .str s => .str s

/-- Python `==` on primitive values. -/
def pyEq (v w : PyVal) : Bool :=
  decide (pyKey v = pyKey w)

/-- Python truthiness (`bool(value)`): `None`, `False`, `0`, and the
empty string are falsy. -/
def pyTruthy : PyVal → Bool
  | .none => false
  | .bool b => b
  | .num q => decide (q ≠ 0)
  | .str s => decide (s ≠ "")

/-- Python `x and y`: returns `y` when `x` is truthy, else `x`. -/
def pyAnd (v w : PyVal) : PyVal :=
  if pyTruthy v then w else v

/-- Python `x or y`: returns `x` when `x` is truthy, else `y`. -/
def pyOr (v w : PyVal) : PyVal :=
  if pyTruthy v then v else w

/-- The concrete `Literal` subclass of a literal node (`String`,
`Number`, `Boolean`, `Null`).  `BaseNode.__eq__` requires
`type(self) == type(other)`, so the class tag takes part in structural
equality. -/
inductive LitClass where
  | string
  | number
  | boolean
  | null
deriving DecidableEq, Repr

/-- A `MathOperation` operator, one of `* / % + -`. -/
inductive MathOp where
  | mul
  | div
  | mod
  | add
  | sub
deriving DecidableEq, Repr

/-- A `Comparison` comparator, one of `< <= == != >= >`. -/
inductive CompOp where
  | lt
  | le
  | eq
  | ne
  | ge
  | gt
deriving DecidableEq, Repr

/-- One entry of `Field.path`: a string sub-field key or an integer
array index. -/
inductive PathItem where
  | key (s : String)
  | idx (i : Int)
deriving DecidableEq, Repr

/-- The expression sublanguage of the AST (`Expression` subclasses of
`src/eql/ast.py`): literals, time ranges, fields, function calls, math
operations, comparisons, set membership, `and` / `or` compounds and
negation.  A `TimeRange` carries `delta.total_seconds()` as a
rational. -/
inductive Expr where
  | lit (cls : LitClass) (value : PyVal)
  | timerange (seconds : ℚ)
  | field (base : String) (path : List PathItem)
  | funcCall (name : String) (arguments : List Expr) (asMethod : Bool)
  | math (left : Expr) (operator : MathOp) (right : Expr)
  | comparison (left : Expr) (comparator : CompOp) (right : Expr)
  | inSet (expression : Expr) (container : List Expr)
  | and (terms : List Expr)
  | or (terms : List Expr)
  | not (term : Expr)
deriving Repr

/-- `String(s)` literal node. -/
def StringE (s : String) : Expr := .lit .string (.str s)

/-- `Number(q)` literal node. -/
def NumberE (q : ℚ) : Expr := .lit .number (.num q)

/-- `Boolean(b)` literal node. -/
def BooleanE (b : Bool) : Expr := .lit .boolean (.bool b)

/-- `Null()` literal node (always stores `None`). -/
def NullE : Expr := .lit .null .none

/-- `isinstance(e, Literal)`. -/
def Expr.isLit : Expr → Bool
  | .lit _ _ => true
  | _ => false

/-- The `value` slot of a literal node, when the node is a literal. -/
def Expr.litVal? : Expr → Option PyVal
  | .lit _ v => some v
  | _ => Option.none

mutual

/-- `BaseNode.__eq__`: same concrete type and slot-wise equality, with
literal values compared by Python `==` and list slots compared
element-wise. -/
def exprEq : Expr → Expr → Bool
  | .lit c v, .lit c' v' => decide (c = c') && pyEq v v'
  | .timerange q, .timerange q' => decide (q = q')
  | .field b p, .field b' p' => decide (b = b') && decide (p = p')
  | .funcCall n a m, .funcCall n' a' m' =>
      decide (n = n') && exprListEq a a' && decide (m = m')
  | .math l o r, .math l' o' r' => exprEq l l' && decide (o = o') && exprEq r r'
  | .comparison l c r, .comparison l' c' r' =>
      exprEq l l' && decide (c = c') && exprEq r r'
  | .inSet e c, .inSet e' c' => exprEq e e' && exprListEq c c'
  | .and t, .and t' => exprListEq t t'
  | .or t, .or t' => exprListEq t t'
  | .not t, .not t' => exprEq t t'
  | _, _ => false

/-- Python list `==`: equal length and element-wise node equality. -/
def exprListEq : List Expr → List Expr → Bool
  | [], [] => true
  | x :: xs, y :: ys => exprEq x y && exprListEq xs ys
  | _, _ => false

end

/-- The numeric content of a value, when Python treats it as a number
for ordering (`bool` is an `int` subtype). -/
def pyValRat? : PyVal → Option ℚ
  | .bool b => some (if b then 1 else 0)
  | .num q => some q
  | _ => Option.none

/-- Python comparison `self.function(lhs, rhs)` for the six
comparators.  `==` / `!=` are total Python equality; the four order
comparators are defined between two numbers/booleans and between two
strings (code-point lexicographic, `a <= b` iff `not (b < a)` for a
total order).  Any other ordered combination raises `TypeError` in
Python 3; it is modelled as `false` and is unreachable in the theorems
below because `Comparison.optimize` short-circuits on mismatched
literal classes before calling the comparator. -/
def pyCompare : CompOp → PyVal → PyVal → Bool
  | .eq, v, w => pyEq v w
  | .ne, v, w => !pyEq v w
  | op, v, w =>
    match pyValRat? v, pyValRat? w with
    | some a, some b =>
      match op with
      | .lt => decide (a < b)
      | .le => decide (a ≤ b)
      | .ge => decide (b ≤ a)
      | .gt => decide (b < a)
      | _ => false
    | _, _ =>
      match v, w with
      | .str a, .str b =>
        match op with
        | .lt => decide (a < b)
        | .le => !decide (b < a)
        | .ge => !decide (a < b)
        | .gt => decide (b < a)
        | _ => false
      | _, _ => false

/-- `str.lower()`, modelled per character over the underlying
character list (ASCII case mapping, per the file header note). -/
def strLower (s : String) : String := String.mk (s.data.map Char.toLower)

/-- `value.lower()` when the value is a string; other values are
returned unchanged (Python would raise `AttributeError`, unreachable
in the theorems below, whose string literals are well-formed). -/
def lowerVal : PyVal → PyVal
  | .str s => .str (strLower s)
  | v => v

/-- `Comparison.optimize` (src/eql/ast.py lines 571-591): two literals
of different concrete classes short-circuit to `Boolean(comparator is
not-equal)`; two literals of the same class compare by value, strings
case-insensitively; structurally identical sides fold to a boolean by
comparator kind; otherwise the node is returned unchanged. -/
def comparisonOptimize (left : Expr) (comparator : CompOp) (right : Expr) : Expr :=
  match left, right with
  | .lit cl vl, .lit cr vr =>
    if cl = cr then
      let lhs := if cl = .string then lowerVal vl else vl
      let rhs := if cl = .string then lowerVal vr else vr
      BooleanE (pyCompare comparator lhs rhs)
    else BooleanE (decide (comparator = .ne))
  | l, r =>
    if exprEq l r then
      BooleanE (decide (comparator = .eq ∨ comparator = .le ∨ comparator = .ge))
    else .comparison l comparator r

/-- Python `%` on numbers: `a - b * floor(a / b)` (the result follows
the sign of the divisor). -/
def pymod (a b : ℚ) : ℚ := a - b * (Rat.floor (a / b) : ℚ)

/-- The arithmetic function for a math operator (`op_lookup`), on
exact rationals.  Division and modulo are only reached with a non-zero
right operand because `MathOperation.optimize` guards the zero case. -/
def mathApply : MathOp → ℚ → ℚ → ℚ
  | .mul, a, b => a * b
  | .div, a, b => a / b
  | .mod, a, b => pymod a b
  | .add, a, b => a + b
  | .sub, a, b => a - b

/-- The tail of `MathOperation.optimize` after the constant-folding
check: the `a + (0 - b)` unary-minus pattern is rewritten to a direct
signed operation (operator sign given by XOR of the two is-subtraction
flags); otherwise the node is rebuilt from the optimized sides. -/
def mathPattern (left : Expr) (op : MathOp) (right : Expr) : Expr :=
  match right with
  | .math rl rop rr =>
    if exprEq rl (NumberE 0) = true ∧ (op = .add ∨ op = .sub) ∧ (rop = .add ∨ rop = .sub) then
      .math left (if (decide (op = .sub)).xor (decide (rop = .sub)) then .sub else .add) rr
    else .math left op right
  | _ => .math left op right

/-- `MathOperation.optimize` (lines 513-529) applied to the two
already-optimized sides: two `Number` literals fold to a single
`Number` unless dividing or taking modulo by the literal zero, which
is left unevaluated; then the unary-minus pattern.  A `Number`-class
literal holding a non-numeric value (malformed per spec section 6) is
not folded here, where Python would apply the operator to the raw
values; no theorem reaches that case. -/
def mathCombine (left : Expr) (op : MathOp) (right : Expr) : Expr :=
  match left, right with
  | .lit .number (.num a), .lit .number (.num b) =>
    if b = 0 ∧ (op = .div ∨ op = .mod) then mathPattern left op right
    else NumberE (mathApply op a b)
  | _, _ => mathPattern left op right

/-- Assignment `d[k] = v` into an insertion-ordered dictionary:
replace the value in place when an equal key exists (the entry keeps
its position), else append. -/
def dictAssign (m : List (PyKey × Expr)) (k : PyKey) (v : Expr) : List (PyKey × Expr) :=
  if m.any (fun p => decide (p.1 = k)) then
    m.map (fun p => if p.1 = k then (p.1, v) else p)
  else m ++ [(k, v)]

/-- `d.setdefault(k, v)`: keep the existing entry when the key is
present, else append. -/
def dictSetdefault (m : List (PyKey × Expr)) (k : PyKey) (v : Expr) : List (PyKey × Expr) :=
  if m.any (fun p => decide (p.1 = k)) then m else m ++ [(k, v)]

/-- Loop of `InSet._get_literals` (lines 632-644) over the container,
accumulating the ordered dict.  Non-literal members are skipped;
`String` literals key by their lowercased value via `setdefault`
(first occurrence wins); all other literals key by raw value via plain
assignment (position of the first occurrence, node of the last).  A
`String`-class literal holding a non-string value would raise
`AttributeError` in Python; it is modelled as a `setdefault` on the
raw key and is unreachable in the theorems below. -/
def getLiteralsGo (acc : List (PyKey × Expr)) : List Expr → List (PyKey × Expr)
  | [] => acc
  | e :: rest =>
    match e with
    | .lit .string (.str s) => getLiteralsGo (dictSetdefault acc (.str (strLower s)) e) rest
    | .lit .string v => getLiteralsGo (dictSetdefault acc (pyKey v) e) rest
    | .lit _ v => getLiteralsGo (dictAssign acc (pyKey v) e) rest
    | _ => getLiteralsGo acc rest

/-- `InSet._get_literals`: the literal members as an insertion-ordered
dict keyed by Python value equality. -/
def getLiterals (container : List Expr) : List (PyKey × Expr) :=
  getLiteralsGo [] container

/-- The tail of `InSet.optimize`: an empty container folds to
`Boolean(false)`, a singleton to an optimized equality comparison, a
container holding the tested expression verbatim to `Boolean(true)`,
anything else to the stabilized `InSet`. -/
def inSetFinish (expression : Expr) : List Expr → Expr
  | [] => BooleanE false
  | [x] => comparisonOptimize expression .eq x
  | c =>
    if c.any (fun item => exprEq expression item) then BooleanE true
    else .inSet expression c

/-- `InSet.optimize` (lines 708-733): stabilize the container (literal
members first, deduplicated by `_get_literals`, then the dynamic
members in order); a literal tested expression resolves membership
immediately (string values lowercased first), keeping only the dynamic
members on a miss; then the final folding rules. -/
def inSetOptimize (expression : Expr) (container : List Expr) : Expr :=
  let lits := (getLiterals container).map (fun p => p.2)
  let dynamic := container.filter (fun v => !v.isLit)
  match expression with
  | .lit _ v =>
    let key : PyKey :=
      match v with
      | .str s => .str (strLower s)
      | v' => pyKey v'
    if (getLiterals container).any (fun p => decide (p.1 = key)) then BooleanE true
    else inSetFinish expression dynamic
  | _ => inSetFinish expression (lits ++ dynamic)

/-- `Expression.__and__` (lines 160-169): a truthy literal is dropped
(returns the left operand), a falsy literal collapses to
`Boolean(false)`, a right-hand `And` is spliced, anything else builds
a binary `And`. -/
def exprAnd (self other : Expr) : Expr :=
  match other with
  | .lit _ w => if pyTruthy w then self else BooleanE false
  | .and ts => .and (self :: ts)
  | _ => .and [self, other]

/-- `Expression.__or__` (lines 171-179): a truthy literal
short-circuits to `Boolean(true)`, but a falsy literal is NOT dropped
(the inner `if` has no else branch), so it falls through to the
generic binary `Or` construction; a right-hand `Or` is spliced (a
literal is never an `Or`, so the falsy fall-through always lands on
the binary case). -/
def exprOr (self other : Expr) : Expr :=
  match other with
  | .lit _ w => if pyTruthy w then BooleanE true else .or [self, other]
  | .or ts => .or (self :: ts)
  | _ => .or [self, other]

/-- `Comparison.__or__` (lines 593-603): `f == a or f == b` and
`f == a or f in (...)` merge into an `InSet`; everything else falls
back to `Expression.__or__`. -/
def compOr (l : Expr) (c : CompOp) (r : Expr) (other : Expr) : Expr :=
  if c = .eq ∧ r.isLit = true then
    match other with
    | .comparison l2 c2 r2 =>
      if exprEq l l2 = true ∧ c2 = .eq ∧ r2.isLit = true then .inSet l [r, r2]
      else exprOr (.comparison l c r) other
    | .inSet e2 c2 =>
      if exprEq l e2 = true ∧ c2.all Expr.isLit = true then .inSet l (r :: c2)
      else exprOr (.comparison l c r) other
    | _ => exprOr (.comparison l c r) other
  else exprOr (.comparison l c r) other

/-- `InSet.__or__` (lines 676-691): the union of two all-literal sets
over the same tested expression (first-seen order via `setdefault`),
re-optimized; a comparison over the same left-hand side with a literal
right folds into a singleton set before the generic OR; else
`Expression.__or__`. -/
def inSetOr (e : Expr) (cont : List Expr) (other : Expr) : Expr :=
  match other with
  | .inSet e2 c2 =>
    if exprEq e e2 = true ∧ cont.all Expr.isLit = true ∧ c2.all Expr.isLit = true then
      let m := (getLiterals c2).foldl (fun acc p => dictSetdefault acc p.1 p.2) (getLiterals cont)
      inSetOptimize e (m.map (fun p => p.2))
    else exprOr (.inSet e cont) other
  | .comparison l2 _ r2 =>
    if exprEq e l2 = true ∧ cont.all Expr.isLit = true ∧ r2.isLit = true then
      exprOr (.inSet e cont) (.inSet l2 [r2])
    else exprOr (.inSet e cont) other
  | _ => exprOr (.inSet e cont) other

/-- Dispatch of `a | b` on the concrete class of `a`
(`Literal.__or__`, `Comparison.__or__`, `InSet.__or__`, `Or.__or__`,
else `Expression.__or__`).  `Literal.__or__` of two literals builds
`Boolean(self.value or other.value)` with Python `or` returning an
operand, not a `bool`. -/
def orOp (self other : Expr) : Expr :=
  match self with
  | .lit _ v =>
    match other with
    | .lit _ w => .lit .boolean (pyOr v w)
    | _ => if pyTruthy v then self else other
  | .comparison l c r => compOr l c r other
  | .inSet e cont => inSetOr e cont other
  | .or ts =>
    match other with
    | .or ts2 => .or (ts ++ ts2)
    | _ => .or (ts ++ [other])
  | _ => exprOr self other

/-- The loop of `Or.optimize` (lines 863-876): left-fold `|` over the
terms, splicing all but the last term of any `Or` produced by a
pairwise combination into the accumulator.  The terms are NOT
optimized first.  An empty compound produced mid-fold would raise
`IndexError` in Python (`terms[-1]`); the `getLastD` default is
unreachable. -/
def orLoop (acc : List Expr) (current : Expr) : List Expr → List Expr × Expr
  | [] => (acc, current)
  | t :: ts =>
    match orOp current t with
    | .or cts => orLoop (acc ++ cts.dropLast) (cts.getLastD (.or [])) ts
    | c => orLoop acc c ts

/-- `Or.optimize`.  An empty term list raises `IndexError` in Python
(`self.terms[0]`); it is modelled as returning the node unchanged and
is unreachable below. -/
def orOptimize : List Expr → Expr
  | [] => .or []
  | t0 :: rest =>
    let (acc, current) := orLoop [] t0 rest
    if acc.isEmpty then current else .or (acc ++ [current])

mutual

/-- `optimize` dispatched on the node type (`BaseNode.optimize` is the
identity; `FunctionCall`, `MathOperation`, `Comparison`, `InSet`,
`Not`, `And` and `Or` override it).  The Python recursion through
`__and__` / `__invert__` has no obvious structural measure, so every
function in this mutual block carries fuel and every mutual call
decreases it; fuel 0 falls back to the unchanged input, and every
theorem below supplies sufficient fuel.  `FunctionCall.optimize`
consults the external function registry (`functions.py`, an external
collaborator per spec section 6, not under src/); the registry is
modelled as having no registered functions, so `get_function` fails
and only the arguments are optimized. -/
def optimizeF : Nat → Expr → Expr
  | 0, e => e
  | n + 1, e =>
    match e with
    | .funcCall name args m => .funcCall name (args.map (optimizeF n)) m
    | .math l op r => mathCombine (optimizeF n l) op (optimizeF n r)
    | .comparison l c r => comparisonOptimize l c r
    | .inSet ex c => inSetOptimize ex c
    | .not t => invertF n (optimizeF n t)
    | .and ts => andOptimizeF n ts
    | .or ts => orOptimize ts
    | e' => e'

/-- Python `~x` dispatched on the class of `x`: `Literal.__invert__`
inverts truthiness; `Comparison.__invert__` flips `==` and `!=` and
re-optimizes; `Not.__invert__` cancels the double negation by
optimizing the inner term; everything else wraps in `Not`
(`Expression.__invert__`). -/
def invertF : Nat → Expr → Expr
  | 0, e => .not e
  | n + 1, e =>
    match e with
    | .lit _ v => BooleanE (!pyTruthy v)
    | .comparison l c r =>
      if c = .eq then comparisonOptimize l .ne r
      else if c = .ne then comparisonOptimize l .eq r
      else .not (.comparison l c r)
    | .not t => optimizeF n t
    | e' => .not e'

/-- Dispatch of `a & b` on the concrete class of `a`
(`Literal.__and__`, `Comparison.__and__`, `InSet.__and__`,
`And.__and__`, else `Expression.__and__`).  `Literal.__and__` of two
literals builds `Boolean(self.value and other.value)` with Python
`and` returning an operand, not a `bool`.  In Python `And.__and__`
also mutates `self.terms` in place; this pure version models only the
returned tree (the mutation is modelled separately by `hAndOp`). -/
def andOpF : Nat → Expr → Expr → Expr
  | 0, a, b => .and [a, b]
  | n + 1, self, other =>
    match self with
    | .lit _ v =>
      match other with
      | .lit _ w => .lit .boolean (pyAnd v w)
      | _ => if pyTruthy v then other else BooleanE false
    | .comparison l c r => compAndF n l c r other
    | .inSet e cont => inSetAndF n e cont other
    | .and ts =>
      match other with
      | .and ts2 => .and (ts ++ ts2)
      | _ => .and (ts ++ [other])
    | _ => exprAnd self other

/-- `Comparison.__and__` (lines 605-609): `f == a and f in (...)`
folds the comparison into a singleton `InSet` intersected with the
set; else `Expression.__and__`. -/
def compAndF : Nat → Expr → CompOp → Expr → Expr → Expr
  | 0, l, c, r, other => exprAnd (.comparison l c r) other
  | n + 1, l, c, r, other =>
    match other with
    | .inSet e2 c2 =>
      if c = .eq ∧ exprEq l e2 = true then inSetAndF n l [r] (.inSet e2 c2)
      else exprAnd (.comparison l c r) other
    | _ => exprAnd (.comparison l c r) other

/-- `InSet.__and__` (lines 646-674): intersection of two all-literal
sets over the same tested expression; set difference against the
negation of an all-literal set; an equality (inequality) comparison
over the same left-hand side with a literal right becomes a singleton
set (its `Not`) combined through `Expression.__and__` and
re-optimized; else `Expression.__and__`.  `~InSet(...)` in line 672 is
`Expression.__invert__`, i.e. a plain `Not` wrapper on a fresh
node. -/
def inSetAndF : Nat → Expr → List Expr → Expr → Expr
  | 0, e, cont, other => exprAnd (.inSet e cont) other
  | n + 1, e, cont, other =>
    match other with
    | .inSet e2 c2 =>
      if exprEq e e2 = true ∧ cont.all Expr.isLit = true ∧ c2.all Expr.isLit = true then
        inSetOptimize e
          (((getLiterals cont).filter
            (fun p => (getLiterals c2).any (fun q => decide (q.1 = p.1)))).map (fun p => p.2))
      else exprAnd (.inSet e cont) other
    | .not t =>
      match t with
      | .inSet e2 c2 =>
        if exprEq e e2 = true ∧ cont.all Expr.isLit = true ∧ c2.all Expr.isLit = true then
          inSetOptimize e
            (((getLiterals cont).filter
              (fun p => !(getLiterals c2).any (fun q => decide (q.1 = p.1)))).map (fun p => p.2))
        else exprAnd (.inSet e cont) (.not t)
      | _ => exprAnd (.inSet e cont) (.not t)
    | .comparison l2 c2 r2 =>
      if c2 = .eq ∧ exprEq e l2 = true ∧ cont.all Expr.isLit = true ∧ r2.isLit = true then
        andOptimizeF n [.inSet e cont, .inSet l2 [r2]]
      else if c2 = .ne ∧ exprEq e l2 = true ∧ cont.all Expr.isLit = true ∧ r2.isLit = true then
        andOptimizeF n [.inSet e cont, .not (.inSet l2 [r2])]
      else exprAnd (.inSet e cont) other
    | _ => exprAnd (.inSet e cont) other

/-- The loop of `And.optimize` (lines 832-845): left-fold `&` over the
terms, splicing all but the last term of any `And` produced by a
pairwise combination into the accumulator; the `getLastD` default is
unreachable (Python would raise `IndexError` on an empty compound). -/
def andLoopF : Nat → List Expr → Expr → List Expr → List Expr × Expr
  | 0, acc, current, _ => (acc, current)
  | _ + 1, acc, current, [] => (acc, current)
  | n + 1, acc, current, t :: ts =>
    match andOpF n current t with
    | .and cts => andLoopF n (acc ++ cts.dropLast) (cts.getLastD (.and [])) ts
    | c => andLoopF n acc c ts

/-- `And.optimize` (lines 832-845): left-fold `&` over the raw terms
(the terms are NOT optimized first) with splicing; an empty term list
raises `IndexError` in Python, modelled as the unchanged node. -/
def andOptimizeF : Nat → List Expr → Expr
  | 0, ts => .and ts
  | _ + 1, [] => .and []
  | n + 1, t0 :: rest =>
    let (acc, current) := andLoopF n [] t0 rest
    if acc.isEmpty then current else .and (acc ++ [current])

end

/-- The outcome of `TimeRange._render` (lines 326-349): the numeral
(as an exact rational), the unit suffix, and whether the fractional
part was dropped (`decimal == int(decimal)`, i.e. the numeral is a
whole number).  Only the string formatting of the numeral is
abstracted away. -/
structure TimeRender where
  decimal : ℚ
  unit : Char
  whole : Bool
deriving DecidableEq, Repr

/-- The length in seconds of a render unit. -/
def unitSeconds : Char → ℚ
  | 'd' => 86400
  | 'h' => 3600
  | 'm' => 60
  | _ => 1

/-- `TimeRange._render` on `interval = delta.total_seconds()`: pick
days when the interval is at least a day, else hours when at least an
hour, else minutes when at least a minute AND (the interval is evenly
divisible by minutes OR has a sub-second fractional component), else
seconds; the numeral is the interval divided by the chosen unit, with
the fractional part dropped when it is a whole number. -/
def timeRangeRender (interval : ℚ) : TimeRender :=
  let du : ℚ × Char :=
    if 86400 ≤ interval then (interval / 86400, 'd')
    else if 3600 ≤ interval then (interval / 3600, 'h')
    else if 60 ≤ interval then
      if pymod interval 60 = 0 ∨ ¬ pymod interval 1 = 0 then (interval / 60, 'm')
      else (interval, 's')
    else (interval, 's')
  { decimal := du.1, unit := du.2, whole := decide (du.1.den = 1) }

/-- `Literal.__init__` invoked with `type(self) is Literal`, i.e. a
direct construction of the abstract base class: raises `TypeError`
immediately (message abridged from line 196). -/
def literalInitDirect (_value : PyVal) : Except String Expr :=
  Except.error "Literal AST nodes cannot be created directly. Try Literal.from_python"

/-- `Literal.__init__` invoked from a concrete subclass: stores the
value unconditionally. -/
def literalInitSub (cls : LitClass) (value : PyVal) : Except String Expr :=
  Except.ok (.lit cls value)

/-- `Null.__init__(value)` (lines 256-258): the argument is ignored
and `Literal.__init__(None)` is called with the concrete class `Null`,
so construction always succeeds and always stores `None`. -/
def nullInit (_value : PyVal) : Except String Expr :=
  literalInitSub .null .none

/-- A `Macro` definition node: name, formal parameter names, body. -/
structure MacroDef where
  name : String
  parameters : List String
  expression : Expr

/-- `dict(zip(parameters, arguments))[k]`: the binding of the last
occurrence of the key wins. -/
def dictGet (m : List (String × Expr)) (k : String) : Option Expr :=
  ((m.filter (fun p => decide (p.1 = k))).getLast?).map (fun p => p.2)

mutual

/-- Modelled from the spec: the rewrite walk of section 4.1
(`RecursiveWalker.walk` lives in `walkers.py`, which is not under
src/) — bottom-up reconstruction of every node from its rewritten
children, then the per-node-type callback.  `Macro.expand` registers a
callback only for `Field` nodes (lines 1192-1195): a field with an
empty path whose base names a formal parameter is replaced by the
optimized bound argument; every other node is rebuilt unchanged. -/
def walkSubst (fuel : Nat) (lookup : List (String × Expr)) : Expr → Expr
  | .field b p =>
    match dictGet lookup b with
    | some arg => if p = [] then optimizeF fuel arg else .field b p
    | _ => .field b p
  | .funcCall n args m => .funcCall n (walkSubstList fuel lookup args) m
  | .math l o r => .math (walkSubst fuel lookup l) o (walkSubst fuel lookup r)
  | .comparison l c r => .comparison (walkSubst fuel lookup l) c (walkSubst fuel lookup r)
  | .inSet e c => .inSet (walkSubst fuel lookup e) (walkSubstList fuel lookup c)
  | .and ts => .and (walkSubstList fuel lookup ts)
  | .or ts => .or (walkSubstList fuel lookup ts)
  | .not t => .not (walkSubst fuel lookup t)
  | e => e

/-- The rewrite walk over a list-valued attribute. -/
def walkSubstList (fuel : Nat) (lookup : List (String × Expr)) : List Expr → List Expr
  | [] => []
  | e :: rest => walkSubst fuel lookup e :: walkSubstList fuel lookup rest

end

/-- `Macro.expand(arguments)` (lines 1178-1199): an argument count
differing from the formal parameter count raises `ValueError` with the
macro name and the expected and received counts; otherwise each bare
`Field` naming a formal is substituted by its optimized bound argument
and the substituted body is optimized once more. -/
def macroExpand (fuel : Nat) (m : MacroDef) (args : List Expr) : Except String Expr :=
  if args.length = m.parameters.length then
    Except.ok (optimizeF fuel (walkSubst fuel (m.parameters.zip args) m.expression))
  else
    Except.error ("Macro " ++ m.name ++ " expected " ++ toString m.parameters.length
      ++ " arguments but received " ++ toString args.length)

/-- The macro `double(x) = x + x` from spec section 8. -/
def macroDouble : MacroDef :=
  { name := "double", parameters := ["x"],
    expression := .math (.field "x" []) .add (.field "x" []) }

/-- A heap expression for the mutation model: `And` nodes hold a
reference to a store cell containing their (mutable) `terms` list;
every other node is embedded by value.  Only the aliasing introduced
by `And.__and__` (`terms = self.terms; terms.append(other)`, which
mutates the shared list in place) needs to be observable, so `Or`
cells and compounds nested inside freshly built pure results are not
tracked. -/
inductive HExpr where
  | base (e : Expr)
  | and (cell : Nat)
deriving Repr

/-- The mutable store: cell `i` holds the contents of one Python list
object used as the `terms` attribute of an `And` node. -/
abbrev Store := List (List HExpr)

/-- Allocate a fresh list object. -/
def hAlloc (st : Store) (l : List HExpr) : Store × Nat :=
  (st ++ [l], st.length)

/-- Read back a heap expression as a pure tree (the observable value
of the Python object graph).  Fueled because a mutated store can in
principle contain cycles; all theorems below use sufficient fuel. -/
def concretize (st : Store) : Nat → HExpr → Expr
  | 0, _ => .field "fuel" []
  | _, .base e => e
  | n + 1, .and c => .and ((st.getD c []).map (concretize st n))

/-- `current & term` over heap expressions.  When the left operand is
an `And` node, `And.__and__` extends `self.terms` IN PLACE and returns
a new `And` sharing the same list object.  When the left operand is
not an `And` and the right is, every non-literal class reaches
`Expression.__and__`, which builds a fresh list `[self] + other.terms`
(a `Literal` left operand instead returns the right operand itself or
`Boolean(false)`).  When neither operand is an `And` object the pure
combination `andOpF` applies, and a compound result is given a fresh
cell. -/
def hAndOp (fuel : Nat) (st : Store) : HExpr → HExpr → Store × HExpr
  | .and c, other =>
    let extra := match other with
      | .and c2 => st.getD c2 []
      | o => [o]
    (st.set c (st.getD c [] ++ extra), .and c)
  | .base e, .and c2 =>
    match e with
    | .lit _ v => if pyTruthy v then (st, .and c2) else (st, .base (BooleanE false))
    | _ =>
      let (st2, idx) := hAlloc st (.base e :: st.getD c2 [])
      (st2, .and idx)
  | .base e, .base e2 =>
    match andOpF fuel e e2 with
    | .and ts =>
      let (st2, idx) := hAlloc st (ts.map .base)
      (st2, .and idx)
    | r => (st, .base r)

/-- The loop of `And.optimize` over heap expressions, carrying the
store: `current.terms` is re-read from the store after each pairwise
combination, so an in-place mutation is observed by the splice. -/
def hAndLoop : Nat → Store → List HExpr → HExpr → List HExpr → Store × List HExpr × HExpr
  | _, st, acc, current, [] => (st, acc, current)
  | 0, st, acc, current, _ => (st, acc, current)
  | fuel + 1, st, acc, current, t :: ts =>
    match hAndOp fuel st current t with
    | (st1, .and cell) =>
      hAndLoop fuel st1 (acc ++ (st1.getD cell []).dropLast)
        ((st1.getD cell []).getLastD (.and cell)) ts
    | (st1, c) => hAndLoop fuel st1 acc c ts

/-- `And.optimize` on the `And` node referencing cell `c`, returning
the final store and the result.  `self.terms[0]` and the slice
`self.terms[1:]` are read once before the loop, matching Python. -/
def hAndOptimize (fuel : Nat) (st : Store) (c : Nat) : Store × HExpr :=
  match st.getD c [] with
  | [] => (st, .and c)
  | t0 :: rest =>
    let (st1, acc, current) := hAndLoop fuel st [] t0 rest
    if acc.isEmpty then (st1, current)
    else
      let (st2, idx) := hAlloc st1 (acc ++ [current])
      (st2, .and idx)

/-- A literal node is well-formed when its value matches its class
(`String` holds `str`, `Number` holds a number, `Boolean` holds
`bool`, `Null` holds `None`) — the structural well-formedness the core
assumes from the parser per spec section 6. -/
def litWF : Expr → Bool
  | .lit .string (.str _) => true
  | .lit .number (.num _) => true
  | .lit .boolean (.bool _) => true
  | .lit .null .none => true
  | .lit _ _ => false
  | _ => true

/-- Whether a node is a `Comparison`. -/
def isComparisonNode : Expr → Bool
  | .comparison _ _ _ => true
  | _ => false

/-! ## Claim theorems -/

/-- C1 (code bug): `And.optimize` folds the pairwise `&` combination
over the RAW terms without optimizing them first, so for
`a = Comparison(Number(1), ==, Number(1))` and `b = Field("x")` the
optimizer returns `And([a, b])` unchanged while
`a.optimize() & b.optimize()` is `Field("x")`; symmetrically
`Or([Comparison(Number(1), ==, Number(2)), Field("x")]).optimize()`
differs from the `|` combination of the optimized terms.  The final
structural inequalities show the divergence is observable. -/
theorem and_or_optimize_folds_raw_terms :
    optimizeF 9 (.and [.comparison (NumberE 1) .eq (NumberE 1), .field "x" []])
      = .and [.comparison (NumberE 1) .eq (NumberE 1), .field "x" []] ∧
    andOpF 9 (optimizeF 9 (.comparison (NumberE 1) .eq (NumberE 1)))
        (optimizeF 9 (.field "x" []))
      = .field "x" [] ∧
    exprEq (.and [.comparison (NumberE 1) .eq (NumberE 1), .field "x" []])
      (.field "x" []) = false ∧
    optimizeF 9 (.or [.comparison (NumberE 1) .eq (NumberE 2), .field "x" []])
      = .or [.comparison (NumberE 1) .eq (NumberE 2), .field "x" []] ∧
    orOp (optimizeF 9 (.comparison (NumberE 1) .eq (NumberE 2)))
        (optimizeF 9 (.field "x" []))
      = .field "x" [] ∧
    exprEq (.or [.comparison (NumberE 1) .eq (NumberE 2), .field "x" []])
      (.field "x" []) = false :=
  ⟨rfl, rfl, rfl, rfl, rfl, rfl⟩

/-- C2 (code bug): optimization is not idempotent.  For
`x = And([Field("a"), And([Boolean(true), Field("b")])])` the first
`optimize` splices the nested compound without optimizing it, yielding
`And([a, true, b])`; the second pass then absorbs the truthy literal,
yielding `And([a, b])`, which differs structurally from the first
result. -/
theorem optimize_not_idempotent :
    optimizeF 9 (.and [.field "a" [], .and [BooleanE true, .field "b" []]])
      = .and [.field "a" [], BooleanE true, .field "b" []] ∧
    optimizeF 9 (optimizeF 9 (.and [.field "a" [], .and [BooleanE true, .field "b" []]]))
      = .and [.field "a" [], .field "b" []] ∧
    exprEq (.and [.field "a" [], .field "b" []])
      (.and [.field "a" [], BooleanE true, .field "b" []]) = false :=
  ⟨rfl, rfl, rfl⟩

/-- C3 (code bug): `optimize` mutates its input.  In the heap model,
cell 0 holds the terms `[a, b]` of the inner `And` and cell 1 the
terms of the root `x = And([And([a, b]), c])`.  Optimizing `x` drives
`And.__and__`, which appends `c` to the shared list in cell 0 in
place, so after the call the same root `x` reads back as
`And([And([a, b, c]), c])`, structurally different from its prior
value. -/
theorem and_optimize_mutates_shared_child :
    concretize [[.base (.field "a" []), .base (.field "b" [])],
      [.and 0, .base (.field "c" [])]] 9 (.and 1)
      = .and [.and [.field "a" [], .field "b" []], .field "c" []] ∧
    concretize (hAndOptimize 9 [[.base (.field "a" []), .base (.field "b" [])],
      [.and 0, .base (.field "c" [])]] 1).1 9 (.and 1)
      = .and [.and [.field "a" [], .field "b" [], .field "c" []], .field "c" []] ∧
    exprEq (.and [.and [.field "a" [], .field "b" [], .field "c" []], .field "c" []])
      (.and [.and [.field "a" [], .field "b" []], .field "c" []]) = false :=
  ⟨rfl, rfl, rfl⟩

/-- C4 (code bug): ORing with a falsy literal does NOT drop the
literal: `Field("x") | Boolean(false)` evaluates to
`Or([Field("x"), Boolean(false)])` (and so does
`Or([Field("x"), Boolean(false)]).optimize()`), not to `Field("x")`
as the rule analogous to AND-with-truthy would give —
`Expression.__or__` checks `other.value` but has no return for the
falsy case, while `Expression.__and__` returns `self` there. -/
theorem or_falsy_literal_not_dropped :
    orOp (.field "x" []) (BooleanE false) = .or [.field "x" [], BooleanE false] ∧
    optimizeF 9 (.or [.field "x" [], BooleanE false])
      = .or [.field "x" [], BooleanE false] ∧
    optimizeF 9 (.field "x" []) = .field "x" [] ∧
    exprEq (.or [.field "x" [], BooleanE false]) (.field "x" []) = false :=
  ⟨rfl, rfl, rfl, rfl⟩

/-- C5: `MathOperation.optimize` on two `Number` literals folds to a
single `Number` computed by the operator arithmetic, except division
or modulo by the literal zero, which leaves the node unevaluated (and,
being a total function, never raises at optimize time). -/
theorem math_operation_constant_folding (n : Nat) (a b : ℚ) (op : MathOp) :
    optimizeF (n + 2) (.math (NumberE a) op (NumberE b)) =
      if b = 0 ∧ (op = .div ∨ op = .mod) then .math (NumberE a) op (NumberE b)
      else NumberE (mathApply op a b) := by
  show mathCombine (optimizeF (n + 1) (NumberE a)) op (optimizeF (n + 1) (NumberE b)) = _
  have hl : optimizeF (n + 1) (NumberE a) = NumberE a := rfl
  have hr : optimizeF (n + 1) (NumberE b) = NumberE b := rfl
  rw [hl, hr]
  by_cases hb : b = 0 ∧ (op = .div ∨ op = .mod)
  · simp [mathCombine, NumberE, hb, mathPattern]
  · simp [mathCombine, NumberE, hb]

/-- C6 counterexample: constructing `Null` with the non-null value `5`
is not rejected — it succeeds and silently stores `None`. -/
theorem null_with_nonnull_value_accepted :
    nullInit (.num 5) = Except.ok NullE :=
  rfl

/-- C6 (amended): constructing the abstract base `Literal` directly is
rejected with a construction error, but `Null` ignores its argument
entirely: construction succeeds for every value, null or not, always
storing `None`. -/
theorem literal_and_null_construction (v : PyVal) :
    literalInitDirect v
      = Except.error "Literal AST nodes cannot be created directly. Try Literal.from_python" ∧
    nullInit v = Except.ok NullE :=
  ⟨rfl, rfl⟩

/-- C7: `InSet` deduplicates string literals case-insensitively with
the first occurrence winning: for every well-formed expression `f`,
`InSet(f, [String("A"), String("a")]).optimize()` equals
`Comparison(f, ==, String("A")).optimize()` — the one-element
container reduces to an equality comparison keeping the first-seen
casing.  Well-formedness only excludes literal nodes whose stored
value contradicts their class (e.g. `Number("A")`), for which the
right-hand side would raise in Python. -/
theorem inset_case_insensitive_dedup (n : Nat) (f : Expr) (h : litWF f = true) :
    optimizeF (n + 1) (.inSet f [StringE "A", StringE "a"])
      = optimizeF (n + 1) (.comparison f .eq (StringE "A")) := by
  show inSetOptimize f [StringE "A", StringE "a"] = comparisonOptimize f .eq (StringE "A")
  cases f with
  | lit cls v =>
    cases cls with
    | string =>
      cases v with
      | str s =>
        have hA : strLower "A" = "a" := rfl
        have ha : strLower "a" = "a" := rfl
        by_cases hs : strLower s = "a"
        · simp [inSetOptimize, getLiterals, getLiteralsGo, dictSetdefault, StringE,
            comparisonOptimize, lowerVal, pyCompare, pyEq, pyKey, BooleanE, hA, ha, hs]
        · simp [inSetOptimize, getLiterals, getLiteralsGo, dictSetdefault, StringE,
            inSetFinish, Expr.isLit, comparisonOptimize, lowerVal, pyCompare, pyEq,
            pyKey, BooleanE, hA, ha, hs, Ne.symm hs]
      | none => simp [litWF] at h
      | bool b => simp [litWF] at h
      | num q => simp [litWF] at h
    | number => cases v <;> first | rfl | simp [litWF] at h
    | boolean => cases v <;> first | rfl | simp [litWF] at h
    | null => cases v <;> first | rfl | simp [litWF] at h
  | timerange q => rfl
  | field b p => rfl
  | funcCall nm args m => rfl
  | math l o r => rfl
  | comparison l c r => rfl
  | inSet e c => rfl
  | and ts => rfl
  | or ts => rfl
  | not t => rfl

/-- Witness for C7 at `f = Field("x")` with fuel 1. -/
theorem inset_case_insensitive_dedup_witness :
    litWF (.field "x" []) = true ∧
    optimizeF 1 (.inSet (.field "x" []) [StringE "A", StringE "a"])
      = optimizeF 1 (.comparison (.field "x" []) .eq (StringE "A")) :=
  ⟨rfl, inset_case_insensitive_dedup 0 (.field "x" []) rfl⟩

/-- C9: `Macro.expand` with a wrong argument count raises an error
naming the macro and the expected and received counts; with the right
count each bare `Field` naming a formal is substituted by the bound
argument and the result re-optimized, so `double(x) = x + x` applied
to `[Number(3)]` yields `Number(6)`. -/
theorem macro_expand_arity_and_substitution :
    (∀ (fuel : Nat) (m : MacroDef) (args : List Expr),
      args.length ≠ m.parameters.length →
        macroExpand fuel m args
          = Except.error ("Macro " ++ m.name ++ " expected "
              ++ toString m.parameters.length ++ " arguments but received "
              ++ toString args.length)) ∧
    (∀ n : Nat, macroExpand (n + 3) macroDouble [NumberE 3] = Except.ok (NumberE 6)) := by
  constructor
  · intro fuel m args hne
    simp [macroExpand, hne]
  · intro n
    have h : macroExpand (n + 3) macroDouble [NumberE 3]
        = Except.ok (NumberE (3 + 3)) := rfl
    rw [h]
    norm_num

/-- Witness for C9: the arity branch applied at `double` called with
two arguments. -/
theorem macro_expand_arity_witness :
    ([NumberE 3, NumberE 4] : List Expr).length ≠ macroDouble.parameters.length ∧
    macroExpand 5 macroDouble [NumberE 3, NumberE 4]
      = Except.error ("Macro " ++ macroDouble.name ++ " expected "
          ++ toString macroDouble.parameters.length ++ " arguments but received "
          ++ toString ([NumberE 3, NumberE 4] : List Expr).length) :=
  ⟨by decide, macro_expand_arity_and_substitution.1 5 macroDouble
      [NumberE 3, NumberE 4] (by decide)⟩

/-- C10 counterexample: the claim quantifies over EVERY expression
`f`, but for the literal `f = Number(1)` the optimizer resolves
membership immediately and
`InSet(Number(1), [Number(1), Boolean(true)]).optimize()` is the
literal `Boolean(true)`, not an equality comparison. -/
theorem inset_mixed_dedup_literal_expr_folds_boolean :
    optimizeF 5 (.inSet (NumberE 1) [NumberE 1, BooleanE true]) = BooleanE true ∧
    isComparisonNode (optimizeF 5 (.inSet (NumberE 1) [NumberE 1, BooleanE true]))
      = false :=
  ⟨rfl, rfl⟩

/-- C10 (amended): `InSet._get_literals` deduplicates non-string
literals by Python value equality across literal kinds — `Number(1)`
and `Boolean(true)` share the key `1`, the entry keeps the first-seen
position and the last-seen node — and for every NON-literal expression
`f`, `InSet(f, [Number(1), Boolean(true)]).optimize()` is the single
equality comparison `Comparison(f, ==, Boolean(true))`; a literal `f`
instead folds to a `Boolean` literal. -/
theorem inset_mixed_dedup_nonliteral (n : Nat) (f : Expr) (h : f.isLit = false) :
    getLiterals [NumberE 1, BooleanE true] = [(PyKey.num 1, BooleanE true)] ∧
    optimizeF (n + 1) (.inSet f [NumberE 1, BooleanE true])
      = .comparison f .eq (BooleanE true) := by
  refine ⟨rfl, ?_⟩
  show inSetOptimize f [NumberE 1, BooleanE true] = .comparison f .eq (BooleanE true)
  cases f <;> first | rfl | simp [Expr.isLit] at h

/-- Witness for C10 at `f = Field("x")` with fuel 1. -/
theorem inset_mixed_dedup_nonliteral_witness :
    Expr.isLit (.field "x" []) = false ∧
    optimizeF 1 (.inSet (.field "x" []) [NumberE 1, BooleanE true])
      = .comparison (.field "x" []) .eq (BooleanE true) :=
  ⟨rfl, (inset_mixed_dedup_nonliteral 0 (.field "x" []) rfl).2⟩

/-- A quotient of rationals by a nonzero divisor is an integer exactly
when the dividend is an integer multiple of the divisor. -/
theorem rat_div_den_one_iff (q u : ℚ) (hu : u ≠ 0) :
    (q / u).den = 1 ↔ ∃ k : ℤ, q = (k : ℚ) * u := by
  constructor
  · intro hd
    refine ⟨(q / u).num, ?_⟩
    have h1 : (((q / u).num : ℤ) : ℚ) = q / u := (Rat.den_eq_one_iff _).mp hd
    rw [h1, div_mul_cancel₀ _ hu]
  · rintro ⟨k, rfl⟩
    rw [mul_div_cancel_right₀ _ hu]
    exact Rat.den_intCast k

/-- C8 counterexample: for a duration of 5400 seconds the renderer
emits the unit `h` with numeral `5400 / 3600 = 1.5`, although one hour
does not evenly divide the duration while one minute does — so the
emitted unit is not "the largest whole unit that evenly divides the
duration" as claimed. -/
theorem timerange_unit_not_divisor :
    (timeRangeRender 5400).unit = 'h' ∧
    (timeRangeRender 5400).decimal = 3 / 2 ∧
    (¬ ∃ k : ℤ, (5400 : ℚ) = (k : ℚ) * unitSeconds 'h') ∧
    (∃ k : ℤ, (5400 : ℚ) = (k : ℚ) * unitSeconds 'm') := by
  refine ⟨rfl, ?_, ?_, ⟨90, by norm_num [unitSeconds]⟩⟩
  · show (5400 : ℚ) / 3600 = 3 / 2
    norm_num
  · rintro ⟨k, hk⟩
    rw [show unitSeconds 'h' = 3600 from rfl] at hk
    have h2 : (5400 : ℤ) = k * 3600 := by exact_mod_cast hk
    omega

/-- C8 (amended): the renderer picks the unit by magnitude thresholds,
not divisibility — days whenever the duration is at least one day,
hours whenever it is at least one hour (but less than a day), minutes
whenever it is at least one minute (but less than an hour) AND either
evenly divisible by minutes or carrying a sub-second fractional
component, seconds otherwise; the numeral is the duration divided by
the chosen unit, and its fractional part is dropped exactly when the
chosen unit evenly divides the duration. -/
theorem timerange_render_characterization (interval : ℚ) :
    (timeRangeRender interval).decimal * unitSeconds (timeRangeRender interval).unit
      = interval ∧
    ((timeRangeRender interval).unit = 'd' ↔ 86400 ≤ interval) ∧
    ((timeRangeRender interval).unit = 'h' ↔ 3600 ≤ interval ∧ interval < 86400) ∧
    ((timeRangeRender interval).unit = 'm' ↔
      (60 ≤ interval ∧ interval < 3600) ∧
        (pymod interval 60 = 0 ∨ ¬ pymod interval 1 = 0)) ∧
    ((timeRangeRender interval).whole = true ↔
      ∃ k : ℤ, interval = (k : ℚ) * unitSeconds (timeRangeRender interval).unit) := by
  by_cases h1 : (86400 : ℚ) ≤ interval
  · have hr : timeRangeRender interval
        = ⟨interval / 86400, 'd', decide ((interval / 86400).den = 1)⟩ := by
      unfold timeRangeRender
      rw [if_pos h1]
    rw [hr]
    refine ⟨?_, ?_, ?_, ?_, ?_⟩
    · show interval / 86400 * unitSeconds 'd' = interval
      rw [show unitSeconds 'd' = (86400 : ℚ) from rfl]
      exact div_mul_cancel₀ _ (by norm_num)
    · show ('d' : Char) = 'd' ↔ 86400 ≤ interval
      exact iff_of_true rfl h1
    · show ('d' : Char) = 'h' ↔ 3600 ≤ interval ∧ interval < 86400
      exact iff_of_false (by decide) (fun hc => absurd h1 (not_le.2 hc.2))
    · show ('d' : Char) = 'm' ↔ _
      exact iff_of_false (by decide) (fun hc => by linarith [hc.1.2])
    · show decide ((interval / 86400).den = 1) = true
        ↔ ∃ k : ℤ, interval = (k : ℚ) * unitSeconds 'd'
      simp only [decide_eq_true_eq]
      rw [show unitSeconds 'd' = (86400 : ℚ) from rfl]
      exact rat_div_den_one_iff interval 86400 (by norm_num)
  · by_cases h2 : (3600 : ℚ) ≤ interval
    · have hr : timeRangeRender interval
          = ⟨interval / 3600, 'h', decide ((interval / 3600).den = 1)⟩ := by
        unfold timeRangeRender
        rw [if_neg h1, if_pos h2]
      rw [hr]
      refine ⟨?_, ?_, ?_, ?_, ?_⟩
      · show interval / 3600 * unitSeconds 'h' = interval
        rw [show unitSeconds 'h' = (3600 : ℚ) from rfl]
        exact div_mul_cancel₀ _ (by norm_num)
      · show ('h' : Char) = 'd' ↔ 86400 ≤ interval
        exact iff_of_false (by decide) h1
      · show ('h' : Char) = 'h' ↔ 3600 ≤ interval ∧ interval < 86400
        exact iff_of_true rfl ⟨h2, not_le.1 h1⟩
      · show ('h' : Char) = 'm' ↔ _
        exact iff_of_false (by decide) (fun hc => by linarith [hc.1.2])
      · show decide ((interval / 3600).den = 1) = true
          ↔ ∃ k : ℤ, interval = (k : ℚ) * unitSeconds 'h'
        simp only [decide_eq_true_eq]
        rw [show unitSeconds 'h' = (3600 : ℚ) from rfl]
        exact rat_div_den_one_iff interval 3600 (by norm_num)
    · by_cases h3 : (60 : ℚ) ≤ interval
      · by_cases h4 : pymod interval 60 = 0 ∨ ¬ pymod interval 1 = 0
        · have hr : timeRangeRender interval
              = ⟨interval / 60, 'm', decide ((interval / 60).den = 1)⟩ := by
            unfold timeRangeRender
            rw [if_neg h1, if_neg h2, if_pos h3, if_pos h4]
          rw [hr]
          refine ⟨?_, ?_, ?_, ?_, ?_⟩
          · show interval / 60 * unitSeconds 'm' = interval
            rw [show unitSeconds 'm' = (60 : ℚ) from rfl]
            exact div_mul_cancel₀ _ (by norm_num)
          · show ('m' : Char) = 'd' ↔ 86400 ≤ interval
            exact iff_of_false (by decide) h1
          · show ('m' : Char) = 'h' ↔ 3600 ≤ interval ∧ interval < 86400
            exact iff_of_false (by decide) (fun hc => absurd hc.1 h2)
          · show ('m' : Char) = 'm' ↔ _
            exact iff_of_true rfl ⟨⟨h3, not_le.1 h2⟩, h4⟩
          · show decide ((interval / 60).den = 1) = true
              ↔ ∃ k : ℤ, interval = (k : ℚ) * unitSeconds 'm'
            simp only [decide_eq_true_eq]
            rw [show unitSeconds 'm' = (60 : ℚ) from rfl]
            exact rat_div_den_one_iff interval 60 (by norm_num)
        · have hr : timeRangeRender interval
              = ⟨interval, 's', decide (interval.den = 1)⟩ := by
            unfold timeRangeRender
            rw [if_neg h1, if_neg h2, if_pos h3, if_neg h4]
          rw [hr]
          refine ⟨?_, ?_, ?_, ?_, ?_⟩
          · show interval * unitSeconds 's' = interval
            rw [show unitSeconds 's' = (1 : ℚ) from rfl]
            exact mul_one interval
          · show ('s' : Char) = 'd' ↔ 86400 ≤ interval
            exact iff_of_false (by decide) h1
          · show ('s' : Char) = 'h' ↔ 3600 ≤ interval ∧ interval < 86400
            exact iff_of_false (by decide) (fun hc => absurd hc.1 h2)
          · show ('s' : Char) = 'm' ↔ _
            exact iff_of_false (by decide) (fun hc => absurd hc.2 h4)
          · show decide (interval.den = 1) = true
              ↔ ∃ k : ℤ, interval = (k : ℚ) * unitSeconds 's'
            simp only [decide_eq_true_eq]
            rw [show unitSeconds 's' = (1 : ℚ) from rfl]
            have h5 := rat_div_den_one_iff interval 1 one_ne_zero
            rw [div_one] at h5
            exact h5
      · have hr : timeRangeRender interval
            = ⟨interval, 's', decide (interval.den = 1)⟩ := by
          unfold timeRangeRender
          rw [if_neg h1, if_neg h2, if_neg h3]
        rw [hr]
        refine ⟨?_, ?_, ?_, ?_, ?_⟩
        · show interval * unitSeconds 's' = interval
          rw [show unitSeconds 's' = (1 : ℚ) from rfl]
          exact mul_one interval
        · show ('s' : Char) = 'd' ↔ 86400 ≤ interval
          exact iff_of_false (by decide) h1
        · show ('s' : Char) = 'h' ↔ 3600 ≤ interval ∧ interval < 86400
          exact iff_of_false (by decide) (fun hc => absurd hc.1 h2)
        · show ('s' : Char) = 'm' ↔ _
          exact iff_of_false (by decide) (fun hc => absurd hc.1.1 h3)
        · show decide (interval.den = 1) = true
            ↔ ∃ k : ℤ, interval = (k : ℚ) * unitSeconds 's'
          simp only [decide_eq_true_eq]
          rw [show unitSeconds 's' = (1 : ℚ) from rfl]
          have h5 := rat_div_den_one_iff interval 1 one_ne_zero
          rw [div_one] at h5
          exact h5
